import Mathlib

/-!
# Verification of the Kudu rebalancer move-scheduling engine

A shallow embedding of `src/kudu/tools/rebalancer.h` (class `Rebalancer`, its
`Runner` hierarchy and helper functions) together with proofs of the spec's
claims about it.  The repository ships only the header; the bodies of the
member functions live in the (absent) implementation file, so the behavioural
definitions below are modelled from the header's doc comments and from the
specification, as indicated on each definition.
-/

namespace KuduRebalancer

/-- Status of a single in-flight replica-move operation as reported by the
cluster when polled (`PollMoveStatus` in the spec's external interface). -/
inductive MoveStatus where
  | pending
  | succeeded
  | failed
deriving DecidableEq

/-- `Rebalancer::ReplicaMove` (rebalancer.h:101-106): a concrete move of a
replica of tablet `tablet_uuid` from tablet server `ts_uuid_from` to
`ts_uuid_to`; `config_opid_idx` is the optional CAS token for Raft
configuration changes. -/
structure ReplicaMove where
  tablet_uuid : String
  ts_uuid_from : String
  ts_uuid_to : String
  config_opid_idx : Option Int
deriving DecidableEq

/-- `Rebalancer::MovesInProgress` (rebalancer.h:114-115): an unordered map
keyed by tablet UUID, embedded as a list of `ReplicaMove` whose
`tablet_uuid` fields act as the keys. -/
abbrev MovesInProgress := List ReplicaMove

/-- `Rebalancer::RunStatus` (rebalancer.h:108-112). -/
inductive RunStatus where
  | UNKNOWN
  | CLUSTER_IS_BALANCED
  | TIMED_OUT
deriving DecidableEq

/-- `Rebalancer::Config` (rebalancer.h:59-97): run parameters. -/
structure Config where
  master_addresses : List String
  table_filters : List String
  max_moves_per_server : Nat
  max_staleness_interval_sec : Nat
  max_run_time_sec : Int
  move_rf1_replicas : Bool
  output_replica_distribution_details : Bool
deriving DecidableEq

/-- The `Config` constructor called with no explicit arguments
(rebalancer.h:60-66): every field takes its declared default value. -/
def Config.mkDefault : Config :=
  { master_addresses := []
    table_filters := []
    max_moves_per_server := 5
    max_staleness_interval_sec := 300
    max_run_time_sec := 0
    move_rf1_replicas := false
    output_replica_distribution_details := false }

/-- Modelled from the spec: `Rebalancer::FilterMoves` (declared
rebalancer.h:330-331, body in the absent implementation file): "remove all
operations that would involve moving replicas of tablets which are in
`scheduled_moves`". -/
def FilterMoves (scheduled_moves : MovesInProgress)
    (replica_moves : List ReplicaMove) : List ReplicaMove :=
  replica_moves.filter
    (fun m => !(scheduled_moves.any (fun s => s.tablet_uuid == m.tablet_uuid)))

/-- State of a `BaseRunner`/`AlgoBasedRunner` (rebalancer.h:164-284).
`max_moves_per_server_` and `deadline_` are const members set at
construction; `scheduled_moves_` is the `MovesInProgress` map of in-flight
operations; `moves_count_` counts successfully completed moves;
`replica_moves_` is the queue of loaded, not yet submitted moves.  The
per-server accounting maps `op_count_per_ts_`/`ts_per_op_count_` and the
source/destination index maps are secondary indices over these fields and
are embedded as derived functions (`srcCount`, `dstCount`, `opCount`). -/
structure RunnerState where
  max_moves_per_server : Nat
  deadline : Option Nat
  scheduled_moves : MovesInProgress
  moves_count : Nat
  replica_moves : List ReplicaMove
deriving DecidableEq

/-- Number of moves in `moves` whose source tablet server is `ts`. -/
def srcCountL (moves : List ReplicaMove) (ts : String) : Nat :=
  (moves.filter (fun m => m.ts_uuid_from == ts)).length

/-- Number of moves in `moves` whose destination tablet server is `ts`. -/
def dstCountL (moves : List ReplicaMove) (ts : String) : Nat :=
  (moves.filter (fun m => m.ts_uuid_to == ts)).length

/-- In-flight moves of the runner having `ts` as source. -/
def srcCount (st : RunnerState) (ts : String) : Nat :=
  srcCountL st.scheduled_moves ts

/-- In-flight moves of the runner having `ts` as destination. -/
def dstCount (st : RunnerState) (ts : String) : Nat :=
  dstCountL st.scheduled_moves ts

/-- The per-server accounting value `op_count_per_ts_[ts]`
(rebalancer.h:195-198, 218-219): a move adds +1 at its source server and +1
at its destination server. -/
def opCount (st : RunnerState) (ts : String) : Nat :=
  srcCount st ts + dstCount st ts

/-- Whether the runner's optional deadline (rebalancer.h:200-202) has passed
at monotonic-clock reading `now`. -/
def deadlinePassed (st : RunnerState) (now : Nat) : Bool :=
  match st.deadline with
  | some d => decide (d < now)
  | none => false

/-- A queued move is schedulable when both its source and its destination
server are strictly under the per-server cap (spec 4.2: "moves whose source
and destination servers are both currently under the per-server cap"). -/
def underCap (st : RunnerState) (m : ReplicaMove) : Bool :=
  decide (opCount st m.ts_uuid_from < st.max_moves_per_server) &&
    decide (opCount st m.ts_uuid_to < st.max_moves_per_server)

/-- Load of the less-loaded endpoint of a move: the selection rule prefers
the move touching the server with the globally fewest in-flight operations. -/
def moveKey (st : RunnerState) (m : ReplicaMove) : Nat :=
  min (opCount st m.ts_uuid_from) (opCount st m.ts_uuid_to)

/-- First element of `l` attaining the minimal `key` value. -/
def pickMin (key : α → Nat) : List α → Option α
  | [] => none
  | x :: xs =>
    match pickMin key xs with
    | none => some x
    | some b => if key x ≤ key b then some x else some b

/-- Modelled from the spec: `AlgoBasedRunner::FindNextMove`
(declared rebalancer.h:251-253, body in the absent implementation file):
among queued moves whose two endpoints are under the per-server cap, select
one touching the least-loaded server.  The implementation breaks ties among
equally loaded eligible servers by uniform random choice; this deterministic
model takes the first such move in queue order. -/
def FindNextMove (st : RunnerState) : Option ReplicaMove :=
  pickMin (moveKey st) (st.replica_moves.filter (underCap st))

/-- Modelled from the spec: `AlgoBasedRunner::ScheduleNextMove`
(declared rebalancer.h:241, body in the absent implementation file).
`submitOk` is the cluster's response to the submission RPC and `now` the
monotonic clock.  Returns `(scheduled, has_errors, timed_out, state)`.
If the deadline has passed, nothing is scheduled.  Otherwise the selected
move is submitted: on success it is moved from the queue into
`scheduled_moves`; on submission failure it is dropped from the queue and
`has_errors` is set.  When no queued move is schedulable the state is left
untouched and no error is reported. -/
def ScheduleNextMove (submitOk : Bool) (now : Nat) (st : RunnerState) :
    Bool × Bool × Bool × RunnerState :=
  if deadlinePassed st now then
    (false, false, true, st)
  else
    match FindNextMove st with
    | none => (false, false, false, st)
    | some m =>
      if submitOk then
        (true, false, false,
          { st with
            replica_moves := st.replica_moves.erase m
            scheduled_moves := m :: st.scheduled_moves })
      else
        (false, true, false,
          { st with replica_moves := st.replica_moves.erase m })

/-- Modelled from the spec: `AlgoBasedRunner::UpdateMovesInProgressStatus`
(declared rebalancer.h:243, contract rebalancer.h:150-156, body in the
absent implementation file).  `poll` is the cluster's per-tablet status
report and `now` the monotonic clock.  Every completed move (success or
failure) is removed from `scheduled_moves`; `moves_count` grows by the
number of successfully completed moves; `has_errors` reports failed moves.
`timed_out` is set when the deadline passed before all in-flight operations
were resolved, and the function returns `true` exactly when the in-progress
state must be cleared.  Returns `(ret, has_errors, timed_out, state)`. -/
def UpdateMovesInProgressStatus (poll : String → MoveStatus) (now : Nat)
    (st : RunnerState) : Bool × Bool × Bool × RunnerState :=
  let remaining :=
    st.scheduled_moves.filter (fun m => poll m.tablet_uuid == MoveStatus.pending)
  let succeeded :=
    st.scheduled_moves.filter (fun m => poll m.tablet_uuid == MoveStatus.succeeded)
  let anyFailed :=
    st.scheduled_moves.any (fun m => poll m.tablet_uuid == MoveStatus.failed)
  let timedOut := deadlinePassed st now && !remaining.isEmpty
  (timedOut, anyFailed, timedOut,
    { st with
      scheduled_moves := remaining
      moves_count := st.moves_count + succeeded.length })

/-- Modelled from the spec: `AlgoBasedRunner::LoadMoves`
(declared rebalancer.h:239, contract rebalancer.h:140-145, body in the
absent implementation file): replaces the working queue of not-yet-submitted
moves; the per-tablet/per-server candidate indices are derived. -/
def LoadMoves (st : RunnerState) (moves : List ReplicaMove) : RunnerState :=
  { st with replica_moves := moves }

/-- A freshly constructed runner (rebalancer.h:166-168): no in-flight moves,
no queued moves, zero completed moves. -/
def initRunnerState (maxMoves : Nat) (deadline : Option Nat) : RunnerState :=
  { max_moves_per_server := maxMoves
    deadline := deadline
    scheduled_moves := []
    moves_count := 0
    replica_moves := [] }

/-- One interaction of the driver with a runner.  `load` feeds a fresh batch
through `FilterMoves` first, as the driver does (spec 4.2: `GetNextMoves`
returns batches "already filtered against currently in-progress moves");
modelled from the spec, batches pair each move with a distinct tablet and
never propose a move whose source equals its destination.  `reset` is the
deliberate staleness reset that forgets all in-flight tracking state. -/
inductive RStep : RunnerState → RunnerState → Prop where
  | load (st : RunnerState) (ms : List ReplicaMove)
      (hnd : (ms.map ReplicaMove.tablet_uuid).Nodup)
      (hne : ∀ m ∈ ms, m.ts_uuid_from ≠ m.ts_uuid_to) :
      RStep st (LoadMoves st (FilterMoves st.scheduled_moves ms))
  | schedule (st : RunnerState) (submitOk : Bool) (now : Nat) :
      RStep st (ScheduleNextMove submitOk now st).2.2.2
  | update (st : RunnerState) (poll : String → MoveStatus) (now : Nat) :
      RStep st (UpdateMovesInProgressStatus poll now st).2.2.2
  | reset (st : RunnerState) :
      RStep st { st with scheduled_moves := [], replica_moves := [] }

/-- Runner states reachable during a run with the given configuration. -/
inductive Reachable (maxMoves : Nat) (deadline : Option Nat) :
    RunnerState → Prop where
  | init : Reachable maxMoves deadline (initRunnerState maxMoves deadline)
  | step {st st' : RunnerState} :
      Reachable maxMoves deadline st → RStep st st' →
      Reachable maxMoves deadline st'

/-- Relevant fields of `KsckTabletSummary` (declared in ksck_results.h,
outside this repository slice): the tablet's id, its table, the tablet
servers hosting its replicas, and whether the tablet is currently in the
middle of a Raft configuration change. -/
structure KsckTabletSummary where
  id : String
  table_id : String
  replicas : List String
  under_reconfiguration : Bool
deriving DecidableEq

/-- Relevant fields of `KsckTableSummary`: the table's id and its
replication factor. -/
structure KsckTableSummary where
  id : String
  replication_factor : Nat
deriving DecidableEq

/-- `ClusterRawInfo` (rebalancer.h:49-53): the sub-set of ksck results
relevant to rebalancing.  Server summaries are embedded as the servers'
UUIDs. -/
structure ClusterRawInfo where
  tserver_uuids : List String
  table_summaries : List KsckTableSummary
  tablet_summaries : List KsckTabletSummary
deriving DecidableEq

/-- `TableReplicaMove` (declared in rebalance_algo.h, outside this
repository slice): a high-level intent to move some replica of a table from
one tablet server to another. -/
structure TableReplicaMove where
  table_id : String
  ts_uuid_from : String
  ts_uuid_to : String
deriving DecidableEq

/-- Replication factor of a table as recorded in the snapshot (0 when the
table is unknown). -/
def tableRf (raw : ClusterRawInfo) (table_id : String) : Nat :=
  match raw.table_summaries.find? (fun t => t.id == table_id) with
  | some t => t.replication_factor
  | none => 0

/-- Modelled from the spec: eligibility of a tablet for a high-level move
intent (spec 4.1, `FindReplicas`): the tablet belongs to the intent's table,
is hosted on the intent's source server, has replication factor greater
than one unless `move_rf1_replicas` is set, and is not already
mid-reconfiguration. -/
def eligibleTablet (move_rf1_replicas : Bool) (move : TableReplicaMove)
    (raw : ClusterRawInfo) (t : KsckTabletSummary) : Bool :=
  (t.table_id == move.table_id) &&
    t.replicas.contains move.ts_uuid_from &&
    (decide (1 < tableRf raw t.table_id) || move_rf1_replicas) &&
    !t.under_reconfiguration

/-- Modelled from the spec: `Rebalancer::FindReplicas` (declared
rebalancer.h:323-325, body in the absent implementation file): output the
tablet UUIDs of the replicas eligible for the given move intent; when no
suitable tablet replica exists the output is empty with an OK status. -/
def FindReplicas (move_rf1_replicas : Bool) (move : TableReplicaMove)
    (raw : ClusterRawInfo) : Except String (List String) :=
  Except.ok
    ((raw.tablet_summaries.filter
        (eligibleTablet move_rf1_replicas move raw)).map
      KsckTabletSummary.id)

/-- Modelled from the spec: the servers on which a tablet is considered to
reside when building the balance model (spec 4.1): a tablet with an
in-progress move is treated as if already relocated, i.e. the replica on
the move's source server is counted at the destination server instead. -/
def effectiveReplicas (moves_in_progress : MovesInProgress)
    (t : KsckTabletSummary) : List String :=
  match moves_in_progress.find? (fun m => m.tablet_uuid == t.id) with
  | some m =>
    t.replicas.map (fun s => if s == m.ts_uuid_from then m.ts_uuid_to else s)
  | none => t.replicas

/-- Structural consistency of a snapshot: every replica of every tablet
summary references a known tablet server. -/
def rawInfoConsistent (raw : ClusterRawInfo) : Bool :=
  raw.tablet_summaries.all (fun t => t.replicas.all raw.tserver_uuids.contains)

/-- The balance model handed to the rebalancing algorithm, embedded as the
effective location of each tablet that passes the table filter. -/
structure ClusterInfo where
  tablet_locations : List (String × List String)
deriving DecidableEq

/-- Modelled from the spec: `Rebalancer::BuildClusterInfo`
(declared rebalancer.h:343-345, body in the absent implementation file):
convert the raw snapshot into the algorithm's input model, treating
in-progress moves as already applied, excluding tables outside the
configured filter (an empty filter admits every table), and failing on a
structurally inconsistent snapshot. -/
def BuildClusterInfo (table_filters : List String) (raw : ClusterRawInfo)
    (moves_in_progress : MovesInProgress) : Except String ClusterInfo :=
  if rawInfoConsistent raw then
    Except.ok
      ⟨(raw.tablet_summaries.filter
          (fun t => table_filters.isEmpty || table_filters.contains t.table_id)).map
        (fun t => (t.id, effectiveReplicas moves_in_progress t))⟩
  else
    Except.error "tablet summary references an unknown tablet server"

/-- Responses of the external collaborators during one run: whether the
`i`-th snapshot refresh succeeds, the algorithm's `i`-th batch of concrete
moves, the outcome of the `k`-th submission RPC, and the per-tablet status
reported when polling at interaction round `k`. -/
structure Env where
  scanOk : Nat → Bool
  batches : Nat → List ReplicaMove
  submitOk : Nat → Bool
  poll : Nat → String → MoveStatus

/-- The runner deadline derived from the configuration:
`max_run_time_sec = 0` means unbounded run time. -/
def runnerDeadline (cfg : Config) : Option Nat :=
  if cfg.max_run_time_sec = 0 then none else some cfg.max_run_time_sec.toNat

/-- Modelled from the spec: the inner schedule/poll loop of the driver
(spec 4.3 step 4, implementation file absent): repeatedly submit schedulable
moves, polling in-flight moves when nothing can be scheduled, until the
batch is exhausted or the deadline signal arrives.  `k` counts interaction
rounds and doubles as the monotonic clock; `subs` counts submission RPCs
issued to the cluster.  Returns `(k, state, subs, timed_out)`. -/
def processBatch (env : Env) : Nat → Nat → RunnerState → Nat →
    Nat × RunnerState × Nat × Bool
  | 0, k, st, subs => (k, st, subs, false)
  | fuel + 1, k, st, subs =>
    if st.replica_moves.isEmpty && st.scheduled_moves.isEmpty then
      (k, st, subs, false)
    else if st.replica_moves.isEmpty then
      match UpdateMovesInProgressStatus (env.poll k) k st with
      | (ret, _, timedOut, st') =>
        if ret then
          (k + 1, { st' with scheduled_moves := [] }, subs, timedOut)
        else
          processBatch env fuel (k + 1) st' subs
    else
      match ScheduleNextMove (env.submitOk k) k st with
      | (scheduled, hasErrors, timedOut, st') =>
        if timedOut then (k + 1, st', subs, true)
        else if scheduled || hasErrors then
          processBatch env fuel (k + 1) st' (subs + 1)
        else
          match UpdateMovesInProgressStatus (env.poll k) k st' with
          | (ret, _, timedOut', st'') =>
            if ret then
              (k + 1, { st'' with scheduled_moves := [] }, subs, timedOut')
            else
              processBatch env fuel (k + 1) st'' subs

/-- Modelled from the spec: the outer loop of `Rebalancer::Run` /
`Rebalancer::RunWith` (declared rebalancer.h:123-127 and 348, implementation
file absent): refresh the snapshot, ask the algorithm for the next batch of
moves, return `CLUSTER_IS_BALANCED` when it proposes none, otherwise load
the filtered batch and process it, returning `TIMED_OUT` when the deadline
expires.  Output is `(result_status, moves_count, submissions)`;
a failed snapshot refresh aborts the run with an error. -/
def runLoop (env : Env) : Nat → Nat → RunnerState → Nat →
    Except String (RunStatus × Nat × Nat)
  | 0, _, st, subs => Except.ok (RunStatus.UNKNOWN, st.moves_count, subs)
  | fuel + 1, k, st, subs =>
    if !(env.scanOk k) then
      Except.error "cluster is unreachable"
    else if (env.batches k).isEmpty then
      Except.ok (RunStatus.CLUSTER_IS_BALANCED, st.moves_count, subs)
    else
      match
        processBatch env (fuel + 1) (k + 1)
          (LoadMoves st (FilterMoves st.scheduled_moves (env.batches k))) subs
      with
      | (k', st', subs', timedOut) =>
        if timedOut then
          Except.ok (RunStatus.TIMED_OUT, st'.moves_count, subs')
        else
          runLoop env fuel k' st' subs'

/-- Modelled from the spec: `Rebalancer::Run` (rebalancer.h:123-127) for a
runner built from the configuration, starting from a fresh runner state. -/
def Run (env : Env) (cfg : Config) (fuel : Nat) :
    Except String (RunStatus × Nat × Nat) :=
  runLoop env fuel 0
    (initRunnerState cfg.max_moves_per_server (runnerDeadline cfg)) 0

/-- The runner's internal consistency invariant: in-flight moves are keyed
by distinct tablets, queued moves are for distinct tablets none of which has
an in-flight move, no move has equal endpoints, and per-server accounting
respects the cap. -/
def GoodState (st : RunnerState) : Prop :=
  (st.scheduled_moves.map ReplicaMove.tablet_uuid).Nodup ∧
  (st.replica_moves.map ReplicaMove.tablet_uuid).Nodup ∧
  (∀ m ∈ st.replica_moves, ∀ s ∈ st.scheduled_moves,
    m.tablet_uuid ≠ s.tablet_uuid) ∧
  (∀ m ∈ st.replica_moves, m.ts_uuid_from ≠ m.ts_uuid_to) ∧
  (∀ m ∈ st.scheduled_moves, m.ts_uuid_from ≠ m.ts_uuid_to) ∧
  (∀ ts, opCount st ts ≤ st.max_moves_per_server)

/-- Full invariant carried through the reachability induction. -/
def Inv (maxMoves : Nat) (deadline : Option Nat) (st : RunnerState) : Prop :=
  st.max_moves_per_server = maxMoves ∧ st.deadline = deadline ∧ GoodState st

/-- A concrete replica move used to exercise the model. -/
def sampleMove : ReplicaMove := ⟨"t1", "A", "B", none⟩

/-- A fresh runner with the default per-server cap and no deadline. -/
def sampleState0 : RunnerState := initRunnerState 5 none

/-- The fresh runner after loading a one-move batch through the filter. -/
def sampleLoaded : RunnerState :=
  LoadMoves sampleState0 (FilterMoves sampleState0.scheduled_moves [sampleMove])

/-- The loaded runner after successfully scheduling its move. -/
def sampleScheduled : RunnerState := (ScheduleNextMove true 0 sampleLoaded).2.2.2

/-- A runner whose single queued move has both endpoints of an in-flight
move at the per-server cap of one. -/
def sampleCapState : RunnerState :=
  { max_moves_per_server := 1
    deadline := none
    scheduled_moves := [⟨"t0", "A", "C", none⟩]
    moves_count := 0
    replica_moves := [⟨"t1", "A", "B", none⟩] }

/-- A runner with one in-flight move and a deadline already in the past. -/
def sampleDeadlineState : RunnerState :=
  { max_moves_per_server := 5
    deadline := some 5
    scheduled_moves := [sampleMove]
    moves_count := 0
    replica_moves := [] }

/-- An environment in which the cluster is reachable and the algorithm
immediately reports balance. -/
def sampleBalancedEnv : Env :=
  ⟨fun _ => true, fun _ => [], fun _ => true, fun _ _ => MoveStatus.pending⟩

/-- A concrete raw snapshot: three servers, one table of replication factor
three, one tablet hosted on servers `A` and `C`. -/
def sampleRaw : ClusterRawInfo :=
  { tserver_uuids := ["A", "B", "C"]
    table_summaries := [⟨"T", 3⟩]
    tablet_summaries := [⟨"t1", "T", ["A", "C"], false⟩] }

end KuduRebalancer

namespace KuduRebalancer

theorem pickMin_mem {α : Type} (key : α → Nat) :
    ∀ (l : List α) (m : α), pickMin key l = some m → m ∈ l := by
  intro l
  induction l with
  | nil => intro m h; simp [pickMin] at h
  | cons x xs ih =>
    intro m h
    simp only [pickMin] at h
    cases hx : pickMin key xs with
    | none =>
      rw [hx] at h
      simp only [Option.some.injEq] at h
      simp [h.symm]
    | some b =>
      rw [hx] at h
      by_cases hk : key x ≤ key b
      · simp only [if_pos hk, Option.some.injEq] at h
        simp [h.symm]
      · simp only [if_neg hk, Option.some.injEq] at h
        exact h ▸ List.mem_cons_of_mem x (ih b hx)

theorem findNextMove_mem {st : RunnerState} {m : ReplicaMove}
    (h : FindNextMove st = some m) :
    m ∈ st.replica_moves ∧ underCap st m = true := by
  have hmem := pickMin_mem (moveKey st) _ m h
  exact ⟨(List.mem_filter.mp hmem).1, (List.mem_filter.mp hmem).2⟩

theorem findNextMove_none {st : RunnerState}
    (h : ∀ m ∈ st.replica_moves, underCap st m = false) :
    FindNextMove st = none := by
  unfold FindNextMove
  have : st.replica_moves.filter (underCap st) = [] := by
    simp only [List.filter_eq_nil_iff]
    intro m hm
    simp [h m hm]
  rw [this]
  rfl

theorem srcCountL_cons (m : ReplicaMove) (l : List ReplicaMove) (ts : String) :
    srcCountL (m :: l) ts =
      srcCountL l ts + (if m.ts_uuid_from = ts then 1 else 0) := by
  by_cases h : m.ts_uuid_from = ts <;>
    simp [srcCountL, List.filter_cons, h, Nat.add_comm]

theorem dstCountL_cons (m : ReplicaMove) (l : List ReplicaMove) (ts : String) :
    dstCountL (m :: l) ts =
      dstCountL l ts + (if m.ts_uuid_to = ts then 1 else 0) := by
  by_cases h : m.ts_uuid_to = ts <;>
    simp [dstCountL, List.filter_cons, h, Nat.add_comm]

theorem srcCountL_sublist {l₁ l₂ : List ReplicaMove}
    (h : List.Sublist l₁ l₂) (ts : String) :
    srcCountL l₁ ts ≤ srcCountL l₂ ts :=
  (h.filter _).length_le

theorem dstCountL_sublist {l₁ l₂ : List ReplicaMove}
    (h : List.Sublist l₁ l₂) (ts : String) :
    dstCountL l₁ ts ≤ dstCountL l₂ ts :=
  (h.filter _).length_le

theorem mem_filterMoves {scheduled : MovesInProgress}
    {ms : List ReplicaMove} {m : ReplicaMove}
    (h : m ∈ FilterMoves scheduled ms) :
    m ∈ ms ∧ ∀ s ∈ scheduled, s.tablet_uuid ≠ m.tablet_uuid := by
  have h' := List.mem_filter.mp h
  refine ⟨h'.1, fun s hs => ?_⟩
  have := h'.2
  simp only [Bool.not_eq_true', List.any_eq_false] at this
  simpa using this s hs

theorem filterMoves_sublist (scheduled : MovesInProgress)
    (ms : List ReplicaMove) :
    List.Sublist (FilterMoves scheduled ms) ms :=
  List.filter_sublist ms

/-- `GoodState` together with the constancy of `max_moves_per_server` and
`deadline_` is preserved by every runner operation. -/
theorem inv_step {maxMoves : Nat} {dl : Option Nat} {st st' : RunnerState}
    (hInv : Inv maxMoves dl st) (hstep : RStep st st') :
    Inv maxMoves dl st' := by
  obtain ⟨hmax, hdl, hnd, hqnd, hdisj, hqne, hsne, hcap⟩ := hInv
  cases hstep with
  | load ms hmnd hmne =>
    refine ⟨hmax, hdl, hnd, ?_, ?_, ?_, hsne, hcap⟩
    · exact hmnd.sublist ((filterMoves_sublist _ _).map _)
    · intro m hm s hs
      exact fun hEq => (mem_filterMoves hm).2 s hs hEq.symm
    · intro m hm
      exact hmne m (mem_filterMoves hm).1
  | schedule submitOk now =>
    unfold ScheduleNextMove
    split
    · exact ⟨hmax, hdl, hnd, hqnd, hdisj, hqne, hsne, hcap⟩
    · split
      · exact ⟨hmax, hdl, hnd, hqnd, hdisj, hqne, hsne, hcap⟩
      · rename_i m hfind
        obtain ⟨hmQ, hmCap⟩ := findNextMove_mem hfind
        have hQnd : st.replica_moves.Nodup := hqnd.of_map
        have herase_sub : List.Sublist (st.replica_moves.erase m)
            st.replica_moves := List.erase_sublist m st.replica_moves
        have hQnd' : ((st.replica_moves.erase m).map
            ReplicaMove.tablet_uuid).Nodup :=
          hqnd.sublist (herase_sub.map _)
        have hmemErase : ∀ q ∈ st.replica_moves.erase m,
            q ∈ st.replica_moves :=
          fun q hq => List.mem_of_mem_erase hq
        have hcapFrom : opCount st m.ts_uuid_from < st.max_moves_per_server := by
          have := hmCap
          simp only [underCap, Bool.and_eq_true, decide_eq_true_eq] at this
          exact this.1
        have hcapTo : opCount st m.ts_uuid_to < st.max_moves_per_server := by
          have := hmCap
          simp only [underCap, Bool.and_eq_true, decide_eq_true_eq] at this
          exact this.2
        have hmne : m.ts_uuid_from ≠ m.ts_uuid_to := hqne m hmQ
        split
        · -- submission succeeded: move enters scheduled_moves
          refine ⟨hmax, hdl, ?_, hQnd', ?_, ?_, ?_, ?_⟩
          · simp only [List.map_cons, List.nodup_cons]
            refine ⟨?_, hnd⟩
            intro hcontra
            obtain ⟨s, hs, hseq⟩ := List.mem_map.mp hcontra
            exact hdisj m hmQ s hs hseq.symm
          · intro q hq s hs
            rcases List.mem_cons.mp hs with hsm | hsold
            · intro hEq
              have hEq' : q.tablet_uuid = m.tablet_uuid := by rw [hEq, hsm]
              have hqm : q = m :=
                List.inj_on_of_nodup_map hqnd (hmemErase q hq) hmQ hEq'
              exact (hQnd.not_mem_erase) (hqm ▸ hq)
            · exact hdisj q (hmemErase q hq) s hsold
          · intro q hq
            exact hqne q (hmemErase q hq)
          · intro s hs
            rcases List.mem_cons.mp hs with hsm | hsold
            · exact hsm ▸ hmne
            · exact hsne s hsold
          · intro ts
            show srcCountL (m :: st.scheduled_moves) ts +
              dstCountL (m :: st.scheduled_moves) ts ≤ st.max_moves_per_server
            rw [srcCountL_cons, dstCountL_cons]
            by_cases hfr : m.ts_uuid_from = ts
            · have hto : m.ts_uuid_to ≠ ts := fun h => hmne (hfr.trans h.symm)
              simp only [if_pos hfr, if_neg hto]
              have : opCount st ts < st.max_moves_per_server := hfr ▸ hcapFrom
              unfold opCount srcCount dstCount at this
              omega
            · by_cases hto : m.ts_uuid_to = ts
              · simp only [if_neg hfr, if_pos hto]
                have : opCount st ts < st.max_moves_per_server := hto ▸ hcapTo
                unfold opCount srcCount dstCount at this
                omega
              · simp only [if_neg hfr, if_neg hto]
                have := hcap ts
                unfold opCount srcCount dstCount at this
                omega
        · -- submission failed: move is dropped from the queue
          refine ⟨hmax, hdl, hnd, hQnd', ?_, ?_, hsne, hcap⟩
          · intro q hq s hs
            exact hdisj q (hmemErase q hq) s hs
          · intro q hq
            exact hqne q (hmemErase q hq)
  | update poll now =>
    have hsub : List.Sublist
        (st.scheduled_moves.filter
          (fun m => poll m.tablet_uuid == MoveStatus.pending))
        st.scheduled_moves := List.filter_sublist _
    refine ⟨hmax, hdl, ?_, hqnd, ?_, hqne, ?_, ?_⟩
    · exact hnd.sublist (hsub.map _)
    · intro q hq s hs
      exact hdisj q hq s (hsub.mem hs)
    · intro s hs
      exact hsne s (hsub.mem hs)
    · intro ts
      show srcCountL
          (st.scheduled_moves.filter
            (fun m => poll m.tablet_uuid == MoveStatus.pending)) ts +
        dstCountL
          (st.scheduled_moves.filter
            (fun m => poll m.tablet_uuid == MoveStatus.pending)) ts ≤
        st.max_moves_per_server
      have h1 := srcCountL_sublist hsub ts
      have h2 := dstCountL_sublist hsub ts
      have := hcap ts
      unfold opCount srcCount dstCount at this
      omega
  | reset =>
    refine ⟨hmax, hdl, by simp, by simp, ?_, ?_, by simp, ?_⟩
    · intro q hq
      simp at hq
    · intro q hq
      simp at hq
    · intro ts
      show srcCountL [] ts + dstCountL [] ts ≤ st.max_moves_per_server
      simp [srcCountL, dstCountL]

/-- Every reachable runner state satisfies the invariant. -/
theorem inv_reachable {maxMoves : Nat} {dl : Option Nat} {st : RunnerState}
    (h : Reachable maxMoves dl st) : Inv maxMoves dl st := by
  induction h with
  | init =>
    refine ⟨rfl, rfl, ?_⟩
    refine ⟨by simp [initRunnerState], by simp [initRunnerState], ?_, ?_, ?_, ?_⟩
    · intro m hm
      simp [initRunnerState] at hm
    · intro m hm
      simp [initRunnerState] at hm
    · intro m hm
      simp [initRunnerState] at hm
    · intro ts
      simp [initRunnerState, opCount, srcCount, dstCount, srcCountL, dstCountL]
  | step _ hstep ih => exact inv_step ih hstep

/-- C7: `FilterMoves` is idempotent: filtering an already filtered candidate
list against the same set of scheduled moves changes nothing. -/
theorem filterMoves_idempotent (scheduled : MovesInProgress)
    (candidates : List ReplicaMove) :
    FilterMoves scheduled (FilterMoves scheduled candidates) =
      FilterMoves scheduled candidates := by
  simp [FilterMoves, List.filter_filter]

theorem scheduleNextMove_moves_count (submitOk : Bool) (now : Nat)
    (st : RunnerState) :
    ((ScheduleNextMove submitOk now st).2.2.2).moves_count = st.moves_count := by
  unfold ScheduleNextMove
  cases hd : deadlinePassed st now
  · cases hf : FindNextMove st
    · simp [hd, hf]
    · cases submitOk <;> simp [hd, hf]
  · simp [hd]

theorem scheduleNextMove_false_scheduled {submitOk : Bool} {now : Nat}
    {st : RunnerState} (h : (ScheduleNextMove submitOk now st).1 = false) :
    ((ScheduleNextMove submitOk now st).2.2.2).scheduled_moves =
      st.scheduled_moves := by
  unfold ScheduleNextMove at h ⊢
  cases hd : deadlinePassed st now
  · cases hf : FindNextMove st
    · simp [hd, hf]
    · cases submitOk
      · simp [hd, hf]
      · rw [hd, hf] at h
        simp at h
  · simp [hd]

theorem updateMoves_moves_count (poll : String → MoveStatus) (now : Nat)
    (st : RunnerState) :
    ((UpdateMovesInProgressStatus poll now st).2.2.2).moves_count =
      st.moves_count +
        (st.scheduled_moves.filter
          (fun m => poll m.tablet_uuid == MoveStatus.succeeded)).length := rfl

theorem updateMoves_scheduled (poll : String → MoveStatus) (now : Nat)
    (st : RunnerState) :
    ((UpdateMovesInProgressStatus poll now st).2.2.2).scheduled_moves =
      st.scheduled_moves.filter
        (fun m => poll m.tablet_uuid == MoveStatus.pending) := rfl

/-- C1: in every reachable state of a run, for every tablet server, the
number of in-flight moves with that server as source plus the number with
that server as destination never exceeds the configured
`max_moves_per_server`; since reachability is closed under
`ScheduleNextMove`, `UpdateMovesInProgressStatus`, `LoadMoves` and the
staleness reset, each of these operations preserves the bound. -/
theorem perServerCapInvariant {maxMoves : Nat} {dl : Option Nat}
    {st : RunnerState} (h : Reachable maxMoves dl st) (ts : String) :
    srcCount st ts + dstCount st ts ≤ maxMoves := by
  obtain ⟨hmax, -, -, -, -, -, -, hcap⟩ := inv_reachable h
  have hts := hcap ts
  unfold opCount at hts
  exact hmax ▸ hts

/-- Witness for C1 on a concrete two-step run. -/
theorem perServerCapInvariant_witness :
    srcCount sampleScheduled "A" + dstCount sampleScheduled "A" ≤ 5 :=
  perServerCapInvariant
    (Reachable.step
      (Reachable.step Reachable.init
        (RStep.load sampleState0 [sampleMove] (by decide) (by decide)))
      (RStep.schedule sampleLoaded true 0))
    "A"

/-- C2: in every reachable state of a run each tablet id appears in at most
one entry of `MovesInProgress`; entries are added only when `ScheduleNextMove`
reports a successful submission (when it returns `false` the in-flight map is
unchanged), and `UpdateMovesInProgressStatus` only removes entries. -/
theorem tabletAtMostOneInFlight :
    (∀ (maxMoves : Nat) (dl : Option Nat) (st : RunnerState),
        Reachable maxMoves dl st →
          (st.scheduled_moves.map ReplicaMove.tablet_uuid).Nodup) ∧
    (∀ (submitOk : Bool) (now : Nat) (st : RunnerState),
        (ScheduleNextMove submitOk now st).1 = false →
          ((ScheduleNextMove submitOk now st).2.2.2).scheduled_moves =
            st.scheduled_moves) ∧
    (∀ (poll : String → MoveStatus) (now : Nat) (st : RunnerState),
        List.Sublist
          ((UpdateMovesInProgressStatus poll now st).2.2.2).scheduled_moves
          st.scheduled_moves) := by
  refine ⟨?_, ?_, ?_⟩
  · intro maxMoves dl st h
    obtain ⟨-, -, hnd, -⟩ := inv_reachable h
    exact hnd
  · intro submitOk now st h
    exact scheduleNextMove_false_scheduled h
  · intro poll now st
    rw [updateMoves_scheduled]
    exact List.filter_sublist _

/-- Witness for C2 on a concrete two-step run. -/
theorem tabletAtMostOneInFlight_witness :
    (sampleScheduled.scheduled_moves.map ReplicaMove.tablet_uuid).Nodup :=
  tabletAtMostOneInFlight.1 5 none sampleScheduled
    (Reachable.step
      (Reachable.step Reachable.init
        (RStep.load sampleState0 [sampleMove] (by decide) (by decide)))
      (RStep.schedule sampleLoaded true 0))

/-- C4: `moves_count` counts exactly the successfully completed moves: it is
unchanged by `LoadMoves` and by `ScheduleNextMove`, grows under
`UpdateMovesInProgressStatus` by exactly the number of in-flight moves the
cluster reports as successfully completed, and is monotonically
non-decreasing along every runner operation; the run outputs the runner's
final `moves_count`. -/
theorem movesCountSuccessOnly :
    (∀ {st st' : RunnerState}, RStep st st' →
        st.moves_count ≤ st'.moves_count) ∧
    (∀ (poll : String → MoveStatus) (now : Nat) (st : RunnerState),
        ((UpdateMovesInProgressStatus poll now st).2.2.2).moves_count =
          st.moves_count +
            (st.scheduled_moves.filter
              (fun m => poll m.tablet_uuid == MoveStatus.succeeded)).length) ∧
    (∀ (submitOk : Bool) (now : Nat) (st : RunnerState),
        ((ScheduleNextMove submitOk now st).2.2.2).moves_count =
          st.moves_count) ∧
    (∀ (st : RunnerState) (ms : List ReplicaMove),
        (LoadMoves st ms).moves_count = st.moves_count) := by
  refine ⟨?_, updateMoves_moves_count, scheduleNextMove_moves_count,
    fun _ _ => rfl⟩
  intro st st' hstep
  cases hstep with
  | load ms hnd hne => exact Nat.le_refl _
  | schedule submitOk now =>
    exact Nat.le_of_eq (scheduleNextMove_moves_count submitOk now st).symm
  | update poll now =>
    rw [updateMoves_moves_count]
    exact Nat.le_add_right _ _
  | reset => exact Nat.le_refl _

/-- Witness for C4 at a concrete update step. -/
theorem movesCountSuccessOnly_witness :
    sampleDeadlineState.moves_count ≤
      ((UpdateMovesInProgressStatus (fun _ => MoveStatus.succeeded) 0
          sampleDeadlineState).2.2.2).moves_count :=
  movesCountSuccessOnly.1
    (RStep.update sampleDeadlineState (fun _ => MoveStatus.succeeded) 0)

/-- C8: when every queued move has its source or destination server at the
per-server cap, `ScheduleNextMove` schedules nothing, reports no error, and
leaves the runner state (in-flight moves and therefore the per-server
accounting) untouched. -/
theorem scheduleNextMoveAllBlocked {st : RunnerState}
    (submitOk : Bool) (now : Nat)
    (h : ∀ m ∈ st.replica_moves,
        st.max_moves_per_server ≤ opCount st m.ts_uuid_from ∨
          st.max_moves_per_server ≤ opCount st m.ts_uuid_to) :
    (ScheduleNextMove submitOk now st).1 = false ∧
    (ScheduleNextMove submitOk now st).2.1 = false ∧
    (ScheduleNextMove submitOk now st).2.2.2 = st := by
  have hnone : FindNextMove st = none := by
    refine findNextMove_none (fun m hm => ?_)
    rcases h m hm with hfrom | hto
    · simp [underCap, Nat.not_lt.mpr hfrom]
    · simp [underCap, Nat.not_lt.mpr hto]
  unfold ScheduleNextMove
  cases hd : deadlinePassed st now <;> simp [hd, hnone]

/-- Witness for C8: a runner whose single queued move shares its source with
an in-flight move at the cap of one. -/
theorem scheduleNextMoveAllBlocked_witness :
    (ScheduleNextMove true 3 sampleCapState).1 = false ∧
    (ScheduleNextMove true 3 sampleCapState).2.1 = false ∧
    (ScheduleNextMove true 3 sampleCapState).2.2.2 = sampleCapState :=
  scheduleNextMoveAllBlocked true 3 (by decide)

/-- C9: if the runner's deadline has passed while some in-flight move is
still unresolved, `UpdateMovesInProgressStatus` sets `timed_out` to `true`
and returns `true`, signalling that the in-flight tracking state must be
discarded. -/
theorem updateMovesTimedOutSignal {st : RunnerState} {d now : Nat}
    (poll : String → MoveStatus)
    (hdl : st.deadline = some d) (hpast : d < now)
    (hpending : ∃ m ∈ st.scheduled_moves,
        poll m.tablet_uuid = MoveStatus.pending) :
    (UpdateMovesInProgressStatus poll now st).1 = true ∧
    (UpdateMovesInProgressStatus poll now st).2.2.1 = true := by
  obtain ⟨m, hm, hp⟩ := hpending
  have hmem : m ∈ st.scheduled_moves.filter
      (fun x => poll x.tablet_uuid == MoveStatus.pending) :=
    List.mem_filter.mpr ⟨hm, by simp [hp]⟩
  have hrem : (st.scheduled_moves.filter
      (fun x => poll x.tablet_uuid == MoveStatus.pending)).isEmpty = false := by
    cases hfil : st.scheduled_moves.filter
        (fun x => poll x.tablet_uuid == MoveStatus.pending) with
    | nil => exact absurd (hfil ▸ hmem) (List.not_mem_nil m)
    | cons a as => rfl
  unfold UpdateMovesInProgressStatus
  simp [deadlinePassed, hdl, hpast, hrem]

/-- Witness for C9: a pending move polled after the deadline. -/
theorem updateMovesTimedOutSignal_witness :
    (UpdateMovesInProgressStatus (fun _ => MoveStatus.pending) 10
        sampleDeadlineState).1 = true ∧
    (UpdateMovesInProgressStatus (fun _ => MoveStatus.pending) 10
        sampleDeadlineState).2.2.1 = true :=
  updateMovesTimedOutSignal (fun _ => MoveStatus.pending) rfl (by decide)
    ⟨sampleMove, by decide, rfl⟩

/-- C3: `BuildClusterInfo` places a tablet with an in-progress move on the
move's destination server and not on its source server in the resulting
balance model. -/
theorem buildClusterInfoRelocatesInFlight
    (table_filters : List String) (raw : ClusterRawInfo)
    (moves : MovesInProgress) (t : KsckTabletSummary) (m : ReplicaMove)
    (hcons : rawInfoConsistent raw = true)
    (ht : t ∈ raw.tablet_summaries)
    (hfilter : (table_filters.isEmpty ||
        table_filters.contains t.table_id) = true)
    (hfind : moves.find? (fun mv => mv.tablet_uuid == t.id) = some m)
    (hhost : m.ts_uuid_from ∈ t.replicas)
    (hne : m.ts_uuid_from ≠ m.ts_uuid_to) :
    ∃ ci, BuildClusterInfo table_filters raw moves = Except.ok ci ∧
      (t.id, effectiveReplicas moves t) ∈ ci.tablet_locations ∧
      m.ts_uuid_to ∈ effectiveReplicas moves t ∧
      m.ts_uuid_from ∉ effectiveReplicas moves t := by
  refine ⟨⟨(raw.tablet_summaries.filter
      (fun x => table_filters.isEmpty ||
        table_filters.contains x.table_id)).map
      (fun x => (x.id, effectiveReplicas moves x))⟩, ?_, ?_, ?_, ?_⟩
  · simp [BuildClusterInfo, hcons]
  · exact List.mem_map.mpr ⟨t, List.mem_filter.mpr ⟨ht, hfilter⟩, rfl⟩
  · unfold effectiveReplicas
    rw [hfind]
    exact List.mem_map.mpr ⟨m.ts_uuid_from, hhost, by simp⟩
  · unfold effectiveReplicas
    rw [hfind]
    intro hcontra
    obtain ⟨s, hsmem, hseq⟩ := List.mem_map.mp hcontra
    by_cases hs : (s == m.ts_uuid_from) = true
    · rw [if_pos hs] at hseq
      exact hne hseq.symm
    · rw [if_neg hs] at hseq
      exact hs (by simp [hseq])

/-- Witness for C3: tablet `t1` with in-progress move `A` to `B` is reported
on `B`, not on `A`. -/
theorem buildClusterInfoRelocatesInFlight_witness :
    ∃ ci, BuildClusterInfo [] sampleRaw [sampleMove] = Except.ok ci ∧
      ("t1", effectiveReplicas [sampleMove] ⟨"t1", "T", ["A", "C"], false⟩) ∈
        ci.tablet_locations ∧
      "B" ∈ effectiveReplicas [sampleMove] ⟨"t1", "T", ["A", "C"], false⟩ ∧
      "A" ∉ effectiveReplicas [sampleMove] ⟨"t1", "T", ["A", "C"], false⟩ :=
  buildClusterInfoRelocatesInFlight [] sampleRaw [sampleMove]
    ⟨"t1", "T", ["A", "C"], false⟩ sampleMove (by decide) (by decide)
    (by decide) rfl (by decide) (by decide)

/-- C5: if the algorithm's first batch is empty, `Run` succeeds with
`CLUSTER_IS_BALANCED`, a zero count of completed moves, and zero move
submissions issued to the cluster. -/
theorem runBalancedOnFirstEmptyBatch (env : Env) (cfg : Config) (fuel : Nat)
    (hscan : env.scanOk 0 = true) (hempty : env.batches 0 = [])
    (hfuel : 0 < fuel) :
    Run env cfg fuel =
      Except.ok (RunStatus.CLUSTER_IS_BALANCED, 0, 0) := by
  cases fuel with
  | zero => exact absurd hfuel (by simp)
  | succ n =>
    unfold Run runLoop
    simp [hscan, hempty, initRunnerState]

/-- Witness for C5: a concrete environment whose first batch is empty. -/
theorem runBalancedOnFirstEmptyBatch_witness :
    Run sampleBalancedEnv Config.mkDefault 1 =
      Except.ok (RunStatus.CLUSTER_IS_BALANCED, 0, 0) :=
  runBalancedOnFirstEmptyBatch sampleBalancedEnv Config.mkDefault 1 rfl rfl
    (by decide)

/-- C6: when no tablet of the intent's table hosted on the intent's source
server is eligible to move, `FindReplicas` returns an OK status with an
empty tablet-id list. -/
theorem findReplicasEmptyOk (move_rf1_replicas : Bool)
    (move : TableReplicaMove) (raw : ClusterRawInfo)
    (h : ∀ t ∈ raw.tablet_summaries, t.table_id = move.table_id →
        t.replicas.contains move.ts_uuid_from = true →
        eligibleTablet move_rf1_replicas move raw t = false) :
    FindReplicas move_rf1_replicas move raw = Except.ok [] := by
  unfold FindReplicas
  have hfil : raw.tablet_summaries.filter
      (eligibleTablet move_rf1_replicas move raw) = [] := by
    rw [List.filter_eq_nil_iff]
    intro t ht
    by_cases h1 : t.table_id = move.table_id
    · by_cases h2 : t.replicas.contains move.ts_uuid_from = true
      · simp [h t ht h1 h2]
      · have h2' : t.replicas.contains move.ts_uuid_from = false := by
          simpa using h2
        simp only [eligibleTablet]
        intro hcontra
        rw [h2'] at hcontra
        simp at hcontra
    · have h1' : (t.table_id == move.table_id) = false := by simp [h1]
      simp [eligibleTablet, h1']
  rw [hfil]
  rfl

/-- Witness for C6: an intent for table `T` against a snapshot whose only
tablet belongs to a different table. -/
theorem findReplicasEmptyOk_witness :
    FindReplicas false ⟨"T", "A", "B"⟩
      ⟨["A", "B"], [⟨"U", 3⟩], [⟨"u1", "U", ["A"], false⟩]⟩ =
      Except.ok [] :=
  findReplicasEmptyOk false ⟨"T", "A", "B"⟩
    ⟨["A", "B"], [⟨"U", 3⟩], [⟨"u1", "U", ["A"], false⟩]⟩ (by decide)

/-- C10: a `Config` constructed with no explicit arguments carries the
declared defaults: empty master-address and table-filter lists,
`max_moves_per_server = 5`, `max_staleness_interval_sec = 300`,
`max_run_time_sec = 0` (which the run model treats as an unbounded
deadline), and both boolean options off. -/
theorem configDefaults :
    Config.mkDefault.master_addresses = [] ∧
    Config.mkDefault.table_filters = [] ∧
    Config.mkDefault.max_moves_per_server = 5 ∧
    Config.mkDefault.max_staleness_interval_sec = 300 ∧
    Config.mkDefault.max_run_time_sec = 0 ∧
    runnerDeadline Config.mkDefault = none ∧
    Config.mkDefault.move_rf1_replicas = false ∧
    Config.mkDefault.output_replica_distribution_details = false :=
  ⟨rfl, rfl, rfl, rfl, rfl, rfl, rfl, rfl⟩

end KuduRebalancer
